import Mathlib

/-!
Shallow embedding of the Task Board Control Plane
(`src/agentcontrol/scripts/lib/sdklib/task_cli.py`).

Tasks are Python dicts; after `normalize_task` every optional field is
populated, so normalized tasks are modelled as a plain structure and the
pre-normalization shape as a structure of `Option` fields.  The assignment
overlay and the metrics `assign_times` map are Python dicts keyed by task id;
they are modelled as association lists with dict semantics (update replaces
the existing entry in place, otherwise appends; `pop` removes the entry;
lookup finds the entry for the key).  Timestamps are modelled as integer
seconds (`parse_time` failures become `none`), and cycle-time durations in
hours as exact rationals.
-/

namespace TaskBoard

/-- `DEFAULT_OWNER` sentinel from the source. -/
def DEFAULT_OWNER : String := "unassigned"

/-- `STATUS_ORDER` from the source. -/
def STATUS_ORDER : List String :=
  ["in_progress", "review", "ready", "backlog", "blocked", "done"]

/-- `PRIORITY_RANK` dict from the source, as a lookup function. -/
def PRIORITY_RANK (p : String) : Option Nat :=
  if p = "P0" then some 0
  else if p = "P1" then some 1
  else if p = "P2" then some 2
  else if p = "P3" then some 3
  else none

/-- One entry of a task's `comments` list. -/
structure Comment where
  author : String
  timestamp : String
  message : String
deriving Repr, DecidableEq

/-- A task after `normalize_task`: every optional field populated. -/
structure Task where
  id : String
  title : String
  epic : Option String
  priority : String
  size_points : Int
  status : String
  owner : String
  big_task : Option String
  success_criteria : List String
  failure_criteria : List String
  blockers : List String
  dependencies : List String
  conflicts : List String
  comments : List Comment
deriving Repr, DecidableEq

/-- A stored task before `normalize_task`: fields the board file may omit are
`Option`. (`id`/`title` are always written by the code.) -/
structure RawTask where
  id : String
  title : String
  epic : Option String
  priority : Option String
  size_points : Option Int
  status : Option String
  owner : Option String
  big_task : Option (Option String)
  success_criteria : Option (List String)
  failure_criteria : Option (List String)
  blockers : Option (List String)
  dependencies : Option (List String)
  conflicts : Option (List String)
  comments : Option (List Comment)
deriving Repr, DecidableEq

/-- `normalize_task`: `setdefault` of every optional field. -/
def normalize_task (t : RawTask) : Task :=
  { id := t.id
    title := t.title
    epic := t.epic
    priority := t.priority.getD "P2"
    size_points := t.size_points.getD 5
    status := t.status.getD "backlog"
    owner := t.owner.getD DEFAULT_OWNER
    big_task := (t.big_task.getD none)
    success_criteria := t.success_criteria.getD []
    failure_criteria := t.failure_criteria.getD []
    blockers := t.blockers.getD []
    dependencies := t.dependencies.getD []
    conflicts := t.conflicts.getD []
    comments := t.comments.getD [] }

/-- `priority_rank`: source does `PRIORITY_RANK.get(task.get("priority","P3"), 99)`;
on a normalized task the `priority` field is always present. -/
def priority_rank (t : Task) : Nat := (PRIORITY_RANK t.priority).getD 99

/-- `status_rank`: index of the status in `STATUS_ORDER`, else 99. -/
def status_rank (t : Task) : Nat :=
  match STATUS_ORDER.indexOf? t.status with
  | some i => i
  | none => 99

/-- An audit-log event as written by `append_log_event`. -/
structure Event where
  action : String
  task : String
  agent : String
  note : String
  timestamp : String
  previous_owner : Option String
deriving Repr, DecidableEq

-- Association lists with Python-dict semantics --------------------------------

/-- Dict lookup: value stored under key `k`, if any. -/
def lookupAssoc {β : Type} : List (String × β) → String → Option β
  | [], _ => none
  | p :: rest, k => if p.1 = k then some p.2 else lookupAssoc rest k

/-- Dict update `d[k] = v`: replace in place if the key exists (dict keys are
unique), otherwise append. -/
def setAssoc {β : Type} : List (String × β) → String → β → List (String × β)
  | [], k, v => [(k, v)]
  | p :: rest, k, v => if p.1 = k then (k, v) :: rest else p :: setAssoc rest k v

/-- Dict `d.pop(k, None)`: drop the entry for `k`. -/
def popAssoc {β : Type} (a : List (String × β)) (k : String) : List (String × β) :=
  a.filter (fun p => p.1 ≠ k)

-- Session state ----------------------------------------------------------------

/-- In-memory state of one `TaskSession`: board fields, assignment overlay,
buffered events and the two dirty flags. -/
structure SessionState where
  version : String
  updated_at : Option String
  tasks : List Task
  assignments : List (String × String)
  events : List Event
  board_dirty : Bool
  state_dirty : Bool
deriving Repr, DecidableEq

/-- `TaskSession.__post_init__`: normalize every task, then keep only overlay
entries whose task id occurs on the board (`task_id in valid_ids`). -/
def loadSession (version : String) (updated_at : Option String)
    (rawTasks : List RawTask) (rawAssignments : List (String × String)) : SessionState :=
  let tasks := rawTasks.map normalize_task
  { version := version
    updated_at := updated_at
    tasks := tasks
    assignments := rawAssignments.filter (fun p => decide (p.1 ∈ tasks.map Task.id))
    events := []
    board_dirty := false
    state_dirty := false }

/-- `TaskSession.mapping().get(task_id)`: the dict comprehension keeps the last
task with a given id, so look from the end. -/
def mappingFind (tasks : List Task) (tid : String) : Option Task :=
  tasks.reverse.find? (fun t => t.id = tid)

/-- Update the first element satisfying `p` (used, through `reverse`, to model
mutating the dict object `mapping()[task_id]` inside the board list). -/
def updateFirstBy (p : Task → Bool) (f : Task → Task) : List Task → List Task
  | [] => []
  | t :: rest => if p t then f t :: rest else t :: updateFirstBy p f rest

/-- Mutate the task object `mapping()[task_id]` in place: the last element of
the board list carrying this id. -/
def updateTaskById (tasks : List Task) (tid : String) (f : Task → Task) : List Task :=
  (updateFirstBy (fun t => t.id = tid) f tasks.reverse).reverse

/-- `TaskSession.update_assignment`. -/
def update_assignment (a : List (String × String)) (task_id owner : String) :
    List (String × String) :=
  if owner = DEFAULT_OWNER then popAssoc a task_id else setAssoc a task_id owner

/-- Effective owner used throughout the source:
`session.assignments.get(tid, task.get("owner", DEFAULT_OWNER))`. -/
def effOwner (s : SessionState) (t : Task) : String :=
  (lookupAssoc s.assignments t.id).getD t.owner

/-- Effective owner of the task with id `tid`, when present. -/
def effOwnerId (s : SessionState) (tid : String) : Option String :=
  (mappingFind s.tasks tid).map fun t => (lookupAssoc s.assignments tid).getD t.owner

-- Errors (each `raise SystemExit(...)` of the command bodies) -------------------

/-- The business-rule errors the command bodies can raise. -/
inductive TaskError where
  | taskNotFound (id : String)
  | alreadyComplete (id : String)
  | conflictBlocked (details : List String)
  | missingDependency (dep : String)
  | dependencyNotReady (dep : String)
  | duplicateTaskId (id : String)
deriving Repr, DecidableEq

-- assign / select ---------------------------------------------------------------

/-- Conflict collection of `assign_task`: formatted entries for every conflict
whose referenced task exists, is `in_progress`/`review`, and whose effective
owner is neither the sentinel nor the requesting agent. -/
def blockingConflicts (s : SessionState) (agent : String) (t : Task) : List String :=
  t.conflicts.filterMap fun cid =>
    match mappingFind s.tasks cid with
    | none => none
    | some c =>
      if c.status = "in_progress" ∨ c.status = "review" then
        let owner := (lookupAssoc s.assignments cid).getD c.owner
        if owner ≠ DEFAULT_OWNER ∧ owner ≠ agent then some (cid ++ " (" ++ owner ++ ")")
        else none
      else none

/-- Dependency loop of `assign_task`, first error wins: a dependency id absent
from the board always raises; a found dependency raises only when it is not
`done`/`review`, the overlay does not map it to the requesting agent, and
`force` is off. -/
def checkDeps (s : SessionState) (agent : String) (force : Bool) :
    List String → Option TaskError
  | [] => none
  | dep_id :: rest =>
    match mappingFind s.tasks dep_id with
    | none => some (TaskError.missingDependency dep_id)
    | some dep =>
      if (dep.status ≠ "done" ∧ dep.status ≠ "review") ∧
          lookupAssoc s.assignments dep_id ≠ some agent ∧ force = false then
        some (TaskError.dependencyNotReady dep_id)
      else checkDeps s agent force rest

/-- Precondition checks of `assign_task`, in source order: completion, then
conflicts, then the dependency loop. -/
def assignChecks (s : SessionState) (task : Task) (task_id agent : String)
    (force : Bool) : Option TaskError :=
  if task.status = "done" ∧ force = false then some (TaskError.alreadyComplete task_id)
  else if blockingConflicts s agent task ≠ [] ∧ force = false then
    some (TaskError.conflictBlocked (blockingConflicts s agent task))
  else checkDeps s agent force task.dependencies

/-- Status promotion of `assign_task`: `backlog`/`ready`/`blocked` become
`in_progress`. -/
def promote (t : Task) : Task :=
  if t.status = "backlog" ∨ t.status = "ready" ∨ t.status = "blocked" then
    { t with status := "in_progress" }
  else t

/-- `assign_task` (commands `assign`/`select`, and the tail of `grab`): all
checks precede all mutations in the source; the returned state is the session
state when the command body finishes (normally or by raising). -/
def assign_task (s : SessionState) (task_id agent note ts action : String)
    (force : Bool) : SessionState × Option TaskError :=
  match mappingFind s.tasks task_id with
  | none => (s, some (TaskError.taskNotFound task_id))
  | some task =>
    match assignChecks s task task_id agent force with
    | some e => (s, some e)
    | none =>
      let previous_owner := (lookupAssoc s.assignments task_id).getD task.owner
      let ev : Event :=
        { action := action, task := task_id, agent := agent, note := note,
          timestamp := ts, previous_owner := some previous_owner }
      ({ s with
          assignments := update_assignment s.assignments task_id agent
          tasks := updateTaskById s.tasks task_id fun t => promote { t with owner := agent }
          board_dirty := true
          updated_at := some ts
          state_dirty := true
          events := s.events ++ [ev] }, none)

-- release / complete / comment --------------------------------------------------

/-- `release_task`: reset overlay and stored owner to the sentinel, demote
`in_progress` to `ready`, log a `release` event whose agent is the previous
owner (`previous_owner or DEFAULT_OWNER`). -/
def release_task (s : SessionState) (task_id note ts : String) :
    SessionState × Option TaskError :=
  match mappingFind s.tasks task_id with
  | none => (s, some (TaskError.taskNotFound task_id))
  | some task =>
    let previous_owner := (lookupAssoc s.assignments task_id).getD task.owner
    let ev : Event :=
      { action := "release", task := task_id,
        agent := if previous_owner = "" then DEFAULT_OWNER else previous_owner,
        note := note, timestamp := ts, previous_owner := none }
    ({ s with
        assignments := update_assignment s.assignments task_id DEFAULT_OWNER
        tasks := updateTaskById s.tasks task_id fun t =>
          let t := { t with owner := DEFAULT_OWNER }
          if t.status = "in_progress" then { t with status := "ready" } else t
        board_dirty := true
        updated_at := some ts
        state_dirty := true
        events := s.events ++ [ev] }, none)

/-- `complete_task`: overlay reset to sentinel, stored owner set to the agent,
status set to `done`. -/
def complete_task (s : SessionState) (task_id agent note ts : String) :
    SessionState × Option TaskError :=
  match mappingFind s.tasks task_id with
  | none => (s, some (TaskError.taskNotFound task_id))
  | some task =>
    let previous_owner := (lookupAssoc s.assignments task_id).getD task.owner
    let ev : Event :=
      { action := "complete", task := task_id, agent := agent, note := note,
        timestamp := ts, previous_owner := some previous_owner }
    ({ s with
        assignments := update_assignment s.assignments task_id DEFAULT_OWNER
        tasks := updateTaskById s.tasks task_id fun t =>
          { t with owner := agent, status := "done" }
        board_dirty := true
        updated_at := some ts
        state_dirty := true
        events := s.events ++ [ev] }, none)

/-- `comment_task`: append to the task's comment list; board dirty, overlay and
state-dirty flag untouched. -/
def comment_task (s : SessionState) (task_id author message ts : String) :
    SessionState × Option TaskError :=
  match mappingFind s.tasks task_id with
  | none => (s, some (TaskError.taskNotFound task_id))
  | some _ =>
    let ev : Event :=
      { action := "comment", task := task_id, agent := author, note := message,
        timestamp := ts, previous_owner := none }
    ({ s with
        tasks := updateTaskById s.tasks task_id fun t =>
          { t with comments := t.comments ++ [⟨author, ts, message⟩] }
        board_dirty := true
        updated_at := some ts
        events := s.events ++ [ev] }, none)

-- Scheduling policy (candidate walk of grab / compute_summary) ------------------

/-- Candidate filter shared by `grab_task` and `compute_summary`: status
`ready`/`backlog` and effective owner equal to the sentinel. -/
def isCandidate (s : SessionState) (t : Task) : Bool :=
  decide ((t.status = "ready" ∨ t.status = "backlog") ∧ effOwner s t = DEFAULT_OWNER)

/-- `tasks.index(t)`: position of the first equal element. -/
def taskIndex (tasks : List Task) (t : Task) : Nat :=
  tasks.findIdx fun u => u = t

/-- Python `sorted` key comparison: lexicographic on
`(priority rank, status rank, declaration index)`. -/
def candLe (tasks : List Task) (a b : Task) : Bool :=
  decide (priority_rank a < priority_rank b ∨
    (priority_rank a = priority_rank b ∧
      (status_rank a < status_rank b ∨
        (status_rank a = status_rank b ∧ taskIndex tasks a ≤ taskIndex tasks b))))

/-- Stable insertion step: the new element goes before the first element that
is strictly greater under `le`, hence after every earlier equal-or-smaller
element. -/
def insertSorted (le : Task → Task → Bool) (t : Task) : List Task → List Task
  | [] => [t]
  | u :: rest =>
    if le u t && !(le t u) then u :: insertSorted le t rest else t :: u :: rest

/-- Stable sort by `le` (Python `sorted`). With the key used here, equal keys
force equal elements (the declaration index of the first equal element is part
of the key), so the stable-sorted output is the unique sorted permutation and
any correct model of `sorted` produces this list. -/
def sortByKey (le : Task → Task → Bool) : List Task → List Task
  | [] => []
  | t :: rest => insertSorted le t (sortByKey le rest)

/-- The sorted candidate list of `grab_task` / `compute_summary`. -/
def orderedCandidates (s : SessionState) : List Task :=
  sortByKey (candLe s.tasks) (s.tasks.filter (isCandidate s))

/-- Blocking-dependency list of the candidate walk (status-based: a referenced
task absent from the board blocks, since its status is not `done`/`review`). -/
def summaryBlockingDeps (s : SessionState) (t : Task) : List String :=
  t.dependencies.filter fun dep =>
    match mappingFind s.tasks dep with
    | some d => decide (d.status ≠ "done" ∧ d.status ≠ "review")
    | none => true

/-- Blocking-conflict list of the candidate walk: purely status-based
(`tasks_map.get(conf, {}).get("status") in {"in_progress", "review"}`). -/
def summaryBlockingConflicts (s : SessionState) (t : Task) : List String :=
  t.conflicts.filter fun conf =>
    match mappingFind s.tasks conf with
    | some c => decide (c.status = "in_progress" ∨ c.status = "review")
    | none => false

/-- Candidate test of `compute_summary`'s next-task walk: no blocking
dependency and no blocking conflict. -/
def summaryPass (s : SessionState) (t : Task) : Bool :=
  decide (summaryBlockingDeps s t = [] ∧ summaryBlockingConflicts s t = [])

/-- `next_task` of `compute_summary`: first passing candidate, by id. -/
def nextTaskT (s : SessionState) : Option Task :=
  (orderedCandidates s).find? (summaryPass s)

/-- `next_task` projection used in `summary`/`metrics`. -/
def nextTask (s : SessionState) : Option String :=
  (nextTaskT s).map Task.id

/-- Candidate test of `grab_task`'s walk: skip when there is a blocking
dependency or conflict and `force` is off. -/
def grabPass (s : SessionState) (force : Bool) (t : Task) : Bool :=
  decide (¬((summaryBlockingDeps s t ≠ [] ∨ summaryBlockingConflicts s t ≠ []) ∧
    force = false))

/-- The task `grab_task` hands to `assign_task`, if any. -/
def grabChoice (s : SessionState) (force : Bool) : Option Task :=
  (orderedCandidates s).find? (grabPass s force)

/-- `grab_task`: walk the ordered candidates; assign the first passing one; no
eligible task is a normal outcome, not an error. -/
def grab_task (s : SessionState) (agent note ts : String) (force : Bool) :
    SessionState × Option TaskError :=
  match grabChoice s force with
  | none => (s, none)
  | some t => assign_task s t.id agent note ts "grab" force

-- add ---------------------------------------------------------------------------

/-- Arguments of the `add` command after the argparse/environment defaulting in
`main` (every field already resolved to a concrete value). -/
structure AddArgs where
  id : Option String
  title : String
  epic : String
  priority : String
  size : Int
  status : String
  blockers : List String
  dependencies : List String
  conflicts : List String
  success : List String
  failure : List String
  big_task : Option String
  agent : String
  note : String
deriving Repr, DecidableEq

/-- Python `f"T-{n:03d}"` for the positive numbers produced by id generation. -/
def pad3 (n : Int) : String :=
  if n < 10 then "00" ++ toString n
  else if n < 100 then "0" ++ toString n
  else toString n

/-- Auto-generated id of `add_task`: 1 + the maximum numeric suffix of existing
`T-` ids (unparsable suffixes skipped), zero-padded to three digits. -/
def genId (tasks : List Task) : String :=
  let nums := tasks.filterMap fun t =>
    if t.id.startsWith "T-" then (t.id.drop 2).toInt? else none
  "T-" ++ pad3 (nums.foldl max 0 + 1)

/-- Id resolution of `add_task`: an absent or empty (falsy) `--id` triggers
generation. -/
def addNextId (s : SessionState) (args : AddArgs) : String :=
  match args.id with
  | some i => if i = "" then genId s.tasks else i
  | none => genId s.tasks

/-- `add_task`: resolve the id, fail on a duplicate id before any mutation,
otherwise append the normalized new task and log an `add` event. The overlay is
untouched. -/
def add_task (s : SessionState) (args : AddArgs) (ts : String) :
    SessionState × Option TaskError :=
  let next_id := addNextId s args
  if s.tasks.any (fun t => t.id = next_id) then
    (s, some (TaskError.duplicateTaskId next_id))
  else
    let new_task : Task :=
      { id := next_id, title := args.title, epic := some args.epic,
        priority := args.priority, size_points := args.size, status := args.status,
        owner := DEFAULT_OWNER, big_task := args.big_task,
        success_criteria := args.success, failure_criteria := args.failure,
        blockers := args.blockers, dependencies := args.dependencies,
        conflicts := args.conflicts, comments := [] }
    let ev : Event :=
      { action := "add", task := next_id, agent := args.agent, note := args.note,
        timestamp := ts, previous_owner := none }
    ({ s with
        tasks := s.tasks ++ [new_task]
        board_dirty := true
        updated_at := some ts
        events := s.events ++ [ev] }, none)

-- Commit -------------------------------------------------------------------------

/-- What `TaskSession.commit` writes: the board document when the board flag is
dirty, the assignment document when the state flag is dirty, and the buffered
events appended to the log. -/
structure CommitEffect where
  board_write : Option (String × Option String × List Task)
  state_write : Option (List (String × String))
  appended_events : List Event
deriving Repr, DecidableEq

/-- `TaskSession.commit`. -/
def commit (s : SessionState) : CommitEffect :=
  { board_write := if s.board_dirty then some (s.version, s.updated_at, s.tasks) else none
    state_write := if s.state_dirty then some s.assignments else none
    appended_events := s.events }

-- Metrics fold (compute_metrics, event-history part) ----------------------------

/-- An event as read back from the log for `compute_metrics`: `timestamp` is
the `parse_time` result (in integer seconds, `none` on a missing or unparsable
value); a missing `task` field reads as `""`. -/
structure LogEvent where
  action : String
  task : String
  timestamp : Option Int
deriving Repr, DecidableEq

/-- Accumulator of the `compute_metrics` event loop. -/
structure CycleAcc where
  assign_times : List (String × Int)
  cycle_durations : List Rat
  throughput_24h : Nat
deriving Repr, DecidableEq

/-- One step of the `compute_metrics` event loop: `assign`/`grab` set the open
time for the task, `release` clears it, `complete` counts toward throughput
when within 24h of `now` and records a duration (in hours) when an open time
exists and does not exceed the completion time. -/
def metricsStep (now : Int) (acc : CycleAcc) (e : LogEvent) : CycleAcc :=
  match e.timestamp with
  | none => acc
  | some ts =>
    if e.action = "assign" ∨ e.action = "grab" then
      { acc with assign_times := setAssoc acc.assign_times e.task ts }
    else if e.action = "release" then
      { acc with assign_times := popAssoc acc.assign_times e.task }
    else if e.action = "complete" then
      let acc :=
        if now - 86400 ≤ ts then { acc with throughput_24h := acc.throughput_24h + 1 }
        else acc
      match lookupAssoc acc.assign_times e.task with
      | some start =>
        if start ≤ ts then
          { acc with cycle_durations := acc.cycle_durations ++ [((ts - start : Int) : Rat) / 3600] }
        else acc
      | none => acc
    else acc

/-- The full event loop of `compute_metrics`. -/
def cycleMetrics (now : Int) (events : List LogEvent) : CycleAcc :=
  events.foldl (metricsStep now) ⟨[], [], 0⟩

/-- `avg_cycle_time_hours`: arithmetic mean of the recorded durations, absent
when none were recorded. -/
def avgCycleTime (now : Int) (events : List LogEvent) : Option Rat :=
  let ds := (cycleMetrics now events).cycle_durations
  if ds.isEmpty then none else some (ds.foldl (· + ·) 0 / ds.length)

-- Shared example-building helpers -----------------------------------------------

/-- A fully-normalized task with every default, for concrete boards. -/
def baseTask : Task :=
  { id := "", title := "", epic := none, priority := "P2", size_points := 5,
    status := "backlog", owner := DEFAULT_OWNER, big_task := none,
    success_criteria := [], failure_criteria := [], blockers := [],
    dependencies := [], conflicts := [], comments := [] }

/-- A freshly-loaded session around the given board and overlay. -/
def mkState (tasks : List Task) (assignments : List (String × String)) : SessionState :=
  { version := "v1", updated_at := none, tasks := tasks, assignments := assignments,
    events := [], board_dirty := false, state_dirty := false }

/-- Overlay invariant of §3.5: every overlay key is the id of a board task. -/
def overlayValid (s : SessionState) : Prop :=
  ∀ p ∈ s.assignments, p.1 ∈ s.tasks.map Task.id

-- Concrete boards used by the counterexamples and witnesses ---------------------

/-- One `ready`, unowned task. -/
def sOneReady : SessionState :=
  mkState [{ baseTask with id := "T-1", status := "ready" }] []

/-- `T-1` is `in_progress` but effectively unowned; `T-2` is a `ready` candidate
whose only conflict is `T-1`. -/
def sConflictSentinel : SessionState :=
  mkState
    [{ baseTask with id := "T-1", status := "in_progress" },
     { baseTask with id := "T-2", status := "ready", conflicts := ["T-1"] }] []

/-- The `T-2` candidate of `sConflictSentinel`. -/
def tReadyConflicted : Task :=
  { baseTask with id := "T-2", status := "ready", conflicts := ["T-1"] }

/-- One `assign` followed by two `complete` events for the same task. -/
def evAssignCompleteTwice : List LogEvent :=
  [⟨"assign", "T-1", some 0⟩, ⟨"complete", "T-1", some 3600⟩,
   ⟨"complete", "T-1", some 7200⟩]

/-- A raw stored task with no `priority` field. -/
def rawNoPriority : RawTask :=
  { id := "T-1", title := "t", epic := none, priority := none, size_points := none,
    status := none, owner := none, big_task := none, success_criteria := none,
    failure_criteria := none, blockers := none, dependencies := none,
    conflicts := none, comments := none }

/-- A task whose only dependency id is absent from the board. -/
def sMissingDep : SessionState :=
  mkState [{ baseTask with id := "T-1", dependencies := ["X-9"] }] []

/-- `T-1` depends on `T-2`; `T-2` is `in_progress` and held by `alice` in the
overlay. -/
def sDepHeld : SessionState :=
  mkState
    [{ baseTask with id := "T-1", status := "ready", dependencies := ["T-2"] },
     { baseTask with id := "T-2", status := "in_progress", owner := "alice" }]
    [("T-2", "alice")]

/-- `add` arguments requesting the already-used explicit id `T-1`. -/
def argsDupId : AddArgs :=
  { id := some "T-1", title := "again", epic := "default", priority := "P1", size := 5,
    status := "backlog", blockers := [], dependencies := [], conflicts := [],
    success := [], failure := [], big_task := none, agent := "alice", note := "n" }

end TaskBoard

-- Helper lemmas ------------------------------------------------------------------

namespace TaskBoard

theorem lookupAssoc_setAssoc_self {β : Type} (a : List (String × β)) (k : String) (v : β) :
    lookupAssoc (setAssoc a k v) k = some v := by
  induction a with
  | nil => simp [setAssoc, lookupAssoc]
  | cons p rest ih =>
    by_cases h : p.1 = k
    · simp [setAssoc, h, lookupAssoc]
    · simp [setAssoc, h, lookupAssoc, ih]

theorem mem_setAssoc {β : Type} {a : List (String × β)} {k : String} {v : β}
    {q : String × β} (h : q ∈ setAssoc a k v) : q ∈ a ∨ q = (k, v) := by
  induction a with
  | nil => exact Or.inr (by simpa [setAssoc] using h)
  | cons p rest ih =>
    by_cases hp : p.1 = k
    · rw [setAssoc, if_pos hp] at h
      rcases List.mem_cons.mp h with h | h
      · exact Or.inr h
      · exact Or.inl (List.mem_cons_of_mem _ h)
    · rw [setAssoc, if_neg hp] at h
      rcases List.mem_cons.mp h with h | h
      · exact Or.inl (h ▸ List.mem_cons_self _ _)
      · rcases ih h with h' | h'
        · exact Or.inl (List.mem_cons_of_mem _ h')
        · exact Or.inr h'

theorem mem_popAssoc {β : Type} {a : List (String × β)} {k : String} {q : String × β}
    (h : q ∈ popAssoc a k) : q ∈ a :=
  (List.mem_filter.mp h).1

theorem popAssoc_lookup_none {β : Type} {a : List (String × β)} {k : String}
    (h : lookupAssoc a k = none) : popAssoc a k = a := by
  induction a with
  | nil => rfl
  | cons p rest ih =>
    by_cases hp : p.1 = k
    · rw [lookupAssoc, if_pos hp] at h
      exact absurd h (by simp)
    · rw [lookupAssoc, if_neg hp] at h
      simp only [popAssoc, List.filter_cons]
      rw [if_pos (by simpa using hp)]
      rw [show List.filter (fun p => decide (p.1 ≠ k)) rest = popAssoc rest k from rfl, ih h]

theorem map_updateFirstBy {γ : Type} (p : Task → Bool) (f : Task → Task) (g : Task → γ)
    (hg : ∀ t, p t = true → g (f t) = g t) :
    ∀ l : List Task, (updateFirstBy p f l).map g = l.map g := by
  intro l
  induction l with
  | nil => rfl
  | cons t rest ih =>
    by_cases h : p t = true
    · simp [updateFirstBy, h, hg t h]
    · simp [updateFirstBy, h, ih]

theorem find?_updateFirstBy (p : Task → Bool) (f : Task → Task)
    (hp : ∀ t, p t = true → p (f t) = true) :
    ∀ l : List Task, (updateFirstBy p f l).find? p = (l.find? p).map f := by
  intro l
  induction l with
  | nil => rfl
  | cons t rest ih =>
    by_cases h : p t = true
    · simp [updateFirstBy, h, List.find?_cons_of_pos, hp t h]
    · simp [updateFirstBy, h, List.find?_cons_of_neg, ih]

theorem updateFirstBy_eq_self (p : Task → Bool) (f : Task → Task) :
    ∀ l : List Task, ∀ t, l.find? p = some t → f t = t → updateFirstBy p f l = l := by
  intro l
  induction l with
  | nil => intro t h; exact absurd h (by simp)
  | cons u rest ih =>
    intro t h hft
    by_cases hu : p u = true
    · rw [List.find?_cons_of_pos _ hu, Option.some.injEq] at h
      rw [updateFirstBy, if_pos hu, h, hft]
    · rw [List.find?_cons_of_neg _ hu] at h
      rw [updateFirstBy, if_neg hu, ih t h hft]

theorem ids_updateTaskById (l : List Task) (tid : String) (f : Task → Task)
    (hf : ∀ t, (f t).id = t.id) :
    (updateTaskById l tid f).map Task.id = l.map Task.id := by
  unfold updateTaskById
  rw [List.map_reverse, map_updateFirstBy _ f Task.id (fun t _ => hf t) l.reverse,
    List.map_reverse, List.reverse_reverse]

theorem mappingFind_updateTaskById (l : List Task) (tid : String) (f : Task → Task)
    (hf : ∀ t, (f t).id = t.id) :
    mappingFind (updateTaskById l tid f) tid = (mappingFind l tid).map f := by
  unfold mappingFind updateTaskById
  rw [List.reverse_reverse]
  exact find?_updateFirstBy _ f
    (fun t ht => by simpa [hf t] using ht) l.reverse

theorem updateTaskById_eq_self (l : List Task) (tid : String) (f : Task → Task) (t : Task)
    (h : mappingFind l tid = some t) (hft : f t = t) : updateTaskById l tid f = l := by
  unfold updateTaskById
  rw [updateFirstBy_eq_self _ f l.reverse t h hft, List.reverse_reverse]

theorem mappingFind_mem_ids {l : List Task} {tid : String} {t : Task}
    (h : mappingFind l tid = some t) : tid ∈ l.map Task.id := by
  unfold mappingFind at h
  have hmem := List.mem_of_find?_eq_some h
  have hp := List.find?_some h
  rw [List.mem_reverse] at hmem
  simp only [decide_eq_true_eq] at hp
  exact hp ▸ List.mem_map_of_mem Task.id hmem

theorem promote_id (t : Task) : (promote t).id = t.id := by
  unfold promote; split <;> rfl

theorem checkDeps_none (s : SessionState) (agent : String) (force : Bool) :
    ∀ deps : List String,
      (∀ dep ∈ deps, ∃ d, mappingFind s.tasks dep = some d ∧
        ((d.status ≠ "done" ∧ d.status ≠ "review") →
          (lookupAssoc s.assignments dep = some agent ∨ force = true))) →
      checkDeps s agent force deps = none := by
  intro deps
  induction deps with
  | nil => intro _; rfl
  | cons dep rest ih =>
    intro h
    obtain ⟨d, hd, hcond⟩ := h dep (List.mem_cons_self _ _)
    rw [checkDeps, hd]
    dsimp only
    rw [if_neg, ih fun x hx => h x (List.mem_cons_of_mem _ hx)]
    intro hc
    obtain ⟨hst, hlk, hforce⟩ := hc
    rcases hcond hst with h1 | h1
    · exact hlk h1
    · rw [h1] at hforce
      exact Bool.noConfusion hforce

theorem assign_task_shape (s : SessionState) (tid agent note ts act : String) (force : Bool) :
    (∃ e, assign_task s tid agent note ts act force = (s, some e)) ∨
    (∃ task, mappingFind s.tasks tid = some task ∧
      assign_task s tid agent note ts act force =
        ({ s with
            assignments := update_assignment s.assignments tid agent
            tasks := updateTaskById s.tasks tid fun t => promote { t with owner := agent }
            board_dirty := true
            updated_at := some ts
            state_dirty := true
            events := s.events ++ [⟨act, tid, agent, note, ts,
              some ((lookupAssoc s.assignments tid).getD task.owner)⟩] }, none)) := by
  rcases hm : mappingFind s.tasks tid with _ | task
  · exact Or.inl ⟨TaskError.taskNotFound tid, by simp [assign_task, hm]⟩
  · rcases hc : assignChecks s task tid agent force with _ | e
    · exact Or.inr ⟨task, rfl, by simp [assign_task, hm, hc]⟩
    · exact Or.inl ⟨e, by simp [assign_task, hm, hc]⟩

theorem release_task_shape (s : SessionState) (tid note ts : String) :
    (mappingFind s.tasks tid = none ∧
      release_task s tid note ts = (s, some (TaskError.taskNotFound tid))) ∨
    (∃ task, mappingFind s.tasks tid = some task ∧
      release_task s tid note ts =
        ({ s with
            assignments := update_assignment s.assignments tid DEFAULT_OWNER
            tasks := updateTaskById s.tasks tid fun t =>
              let t := { t with owner := DEFAULT_OWNER }
              if t.status = "in_progress" then { t with status := "ready" } else t
            board_dirty := true
            updated_at := some ts
            state_dirty := true
            events := s.events ++ [⟨"release", tid,
              if (lookupAssoc s.assignments tid).getD task.owner = "" then DEFAULT_OWNER
              else (lookupAssoc s.assignments tid).getD task.owner,
              note, ts, none⟩] }, none)) := by
  rcases hm : mappingFind s.tasks tid with _ | task
  · exact Or.inl ⟨rfl, by simp [release_task, hm]⟩
  · exact Or.inr ⟨task, rfl, by simp [release_task, hm]⟩

theorem complete_task_shape (s : SessionState) (tid agent note ts : String) :
    (mappingFind s.tasks tid = none ∧
      complete_task s tid agent note ts = (s, some (TaskError.taskNotFound tid))) ∨
    (∃ task, mappingFind s.tasks tid = some task ∧
      complete_task s tid agent note ts =
        ({ s with
            assignments := update_assignment s.assignments tid DEFAULT_OWNER
            tasks := updateTaskById s.tasks tid fun t => { t with owner := agent, status := "done" }
            board_dirty := true
            updated_at := some ts
            state_dirty := true
            events := s.events ++ [⟨"complete", tid, agent, note, ts,
              some ((lookupAssoc s.assignments tid).getD task.owner)⟩] }, none)) := by
  rcases hm : mappingFind s.tasks tid with _ | task
  · exact Or.inl ⟨rfl, by simp [complete_task, hm]⟩
  · exact Or.inr ⟨task, rfl, by simp [complete_task, hm]⟩

theorem comment_task_shape (s : SessionState) (tid author message ts : String) :
    (mappingFind s.tasks tid = none ∧
      comment_task s tid author message ts = (s, some (TaskError.taskNotFound tid))) ∨
    (∃ task, mappingFind s.tasks tid = some task ∧
      comment_task s tid author message ts =
        ({ s with
            tasks := updateTaskById s.tasks tid fun t =>
              { t with comments := t.comments ++ [⟨author, ts, message⟩] }
            board_dirty := true
            updated_at := some ts
            events := s.events ++ [⟨"comment", tid, author, message, ts, none⟩] }, none)) := by
  rcases hm : mappingFind s.tasks tid with _ | task
  · exact Or.inl ⟨rfl, by simp [comment_task, hm]⟩
  · exact Or.inr ⟨task, rfl, by simp [comment_task, hm]⟩

theorem grab_task_shape (s : SessionState) (agent note ts : String) (force : Bool) :
    grab_task s agent note ts force = (s, none) ∨
    (∃ t, grabChoice s force = some t ∧
      grab_task s agent note ts force = assign_task s t.id agent note ts "grab" force) := by
  rcases hg : grabChoice s force with _ | t
  · exact Or.inl (by simp [grab_task, hg])
  · exact Or.inr ⟨t, rfl, by simp [grab_task, hg]⟩

theorem add_task_shape (s : SessionState) (args : AddArgs) (ts : String) :
    add_task s args ts = (s, some (TaskError.duplicateTaskId (addNextId s args))) ∨
    ((∀ t ∈ s.tasks, t.id ≠ addNextId s args) ∧
      (add_task s args ts).1.tasks.map Task.id = s.tasks.map Task.id ++ [addNextId s args] ∧
      (add_task s args ts).1.assignments = s.assignments) := by
  by_cases hdup : (s.tasks.any fun t => t.id = addNextId s args) = true
  · exact Or.inl (by simp [add_task, hdup])
  · refine Or.inr ⟨?_, ?_, ?_⟩
    · intro t ht heq
      exact hdup (List.any_eq_true.mpr ⟨t, ht, by simp [heq]⟩)
    · simp [add_task, hdup]
    · simp [add_task, hdup]

theorem mem_insertSorted {le : Task → Task → Bool} {t a : Task} :
    ∀ {l : List Task}, a ∈ insertSorted le t l → a = t ∨ a ∈ l := by
  intro l
  induction l with
  | nil => intro h; exact Or.inl (by simpa [insertSorted] using h)
  | cons u rest ih =>
    intro h
    rw [insertSorted] at h
    by_cases hc : (le u t && !le t u) = true
    · rw [if_pos hc] at h
      rcases List.mem_cons.mp h with h | h
      · exact Or.inr (h ▸ List.mem_cons_self _ _)
      · rcases ih h with h' | h'
        · exact Or.inl h'
        · exact Or.inr (List.mem_cons_of_mem _ h')
    · rw [if_neg hc] at h
      rcases List.mem_cons.mp h with h | h
      · exact Or.inl h
      · exact Or.inr h

theorem mem_sortByKey {le : Task → Task → Bool} {a : Task} :
    ∀ {l : List Task}, a ∈ sortByKey le l → a ∈ l := by
  intro l
  induction l with
  | nil => intro h; rw [sortByKey] at h; exact h
  | cons t rest ih =>
    intro h
    rw [sortByKey] at h
    rcases mem_insertSorted h with h' | h'
    · exact h' ▸ List.mem_cons_self _ _
    · exact List.mem_cons_of_mem _ (ih h')

theorem grabChoice_isCandidate {s : SessionState} {force : Bool} {t : Task}
    (h : grabChoice s force = some t) : isCandidate s t = true := by
  have hmem := List.mem_of_find?_eq_some h
  unfold orderedCandidates at hmem
  exact (List.mem_filter.mp (mem_sortByKey hmem)).2

theorem grabChoice_pass {s : SessionState} {force : Bool} {t : Task}
    (h : grabChoice s force = some t) : grabPass s force t = true :=
  List.find?_some h

theorem nextTaskT_pass {s : SessionState} {t : Task}
    (h : nextTaskT s = some t) : summaryPass s t = true :=
  List.find?_some h

theorem metricsStep_assign (now : Int) (acc : CycleAcc) (tid : String) (ts : Int) :
    metricsStep now acc ⟨"assign", tid, some ts⟩ =
      { acc with assign_times := setAssoc acc.assign_times tid ts } := by
  simp [metricsStep]

theorem metricsStep_complete (now : Int) (acc : CycleAcc) (tid : String) (ts start : Int)
    (hlk : lookupAssoc acc.assign_times tid = some start) (hle : start ≤ ts) :
    metricsStep now acc ⟨"complete", tid, some ts⟩ =
      { acc with
          cycle_durations := acc.cycle_durations ++ [((ts - start : Int) : Rat) / 3600]
          throughput_24h :=
            if now - 86400 ≤ ts then acc.throughput_24h + 1 else acc.throughput_24h } := by
  simp only [metricsStep]
  rw [if_neg (by decide : ¬("complete" = "assign" ∨ "complete" = "grab"))]
  rw [if_neg (by decide : ¬("complete" = "release"))]
  rw [if_pos trivial]
  by_cases h24 : now - 86400 ≤ ts
  · rw [if_pos h24]
    dsimp only
    rw [hlk]
    simp [hle, h24]
  · rw [if_neg h24]
    rw [hlk]
    simp [hle, h24]

end TaskBoard

-- Claims -------------------------------------------------------------------------

namespace TaskBoard

/-- C3 counterexample: after one `assign` of `T-1` and two `complete` events
with no intervening `assign`/`grab`/`release`, the metrics fold records TWO
duration samples, not one, and the open entry for `T-1` is still present —
`complete` does not remove the entry from the open map. -/
theorem C3_counterexample :
    (cycleMetrics 10000 evAssignCompleteTwice).cycle_durations.length = 2 ∧
    (cycleMetrics 10000 evAssignCompleteTwice).assign_times = [("T-1", 0)] := by
  constructor
  · decide
  · decide

/-- C3 (amended): in the average-cycle-time fold, a `complete` event that pairs
with an open `assign`/`grab` entry records a duration sample but leaves the
entry in the open map; hence one `assign` of task `tid` followed by two
`complete` events for `tid` (with no intervening `assign`/`grab`/`release`)
records exactly two samples, both measured from the same assignment time, and
the metric is the arithmetic mean of the recorded samples. -/
theorem C3_avg_cycle_two_samples (now t0 t1 t2 : Int) (tid : String)
    (h1 : t0 ≤ t1) (h2 : t0 ≤ t2) :
    (cycleMetrics now [⟨"assign", tid, some t0⟩, ⟨"complete", tid, some t1⟩,
        ⟨"complete", tid, some t2⟩]).cycle_durations =
      [((t1 - t0 : Int) : Rat) / 3600, ((t2 - t0 : Int) : Rat) / 3600] ∧
    (cycleMetrics now [⟨"assign", tid, some t0⟩, ⟨"complete", tid, some t1⟩,
        ⟨"complete", tid, some t2⟩]).assign_times = [(tid, t0)] ∧
    avgCycleTime now [⟨"assign", tid, some t0⟩, ⟨"complete", tid, some t1⟩,
        ⟨"complete", tid, some t2⟩] =
      some ((((t1 - t0 : Int) : Rat) / 3600 + ((t2 - t0 : Int) : Rat) / 3600) / 2) := by
  have hl : lookupAssoc [(tid, t0)] tid = some t0 := by simp [lookupAssoc]
  have hcm : cycleMetrics now [⟨"assign", tid, some t0⟩, ⟨"complete", tid, some t1⟩,
      ⟨"complete", tid, some t2⟩] =
      ⟨[(tid, t0)],
       [((t1 - t0 : Int) : Rat) / 3600, ((t2 - t0 : Int) : Rat) / 3600],
       ((if now - 86400 ≤ t2 then 1 else 0) + (if now - 86400 ≤ t1 then 1 else 0) : Nat)⟩ := by
    show metricsStep now (metricsStep now (metricsStep now ⟨[], [], 0⟩
      ⟨"assign", tid, some t0⟩) ⟨"complete", tid, some t1⟩)
      ⟨"complete", tid, some t2⟩ = _
    rw [metricsStep_assign]
    rw [show setAssoc ([] : List (String × Int)) tid t0 = [(tid, t0)] from rfl]
    rw [metricsStep_complete now _ tid t1 t0 hl h1]
    dsimp only
    rw [metricsStep_complete now _ tid t2 t0 hl h2]
    dsimp only
    by_cases ha : now - 86400 ≤ t1 <;> by_cases hb : now - 86400 ≤ t2 <;>
      simp [ha, hb]
  refine ⟨by rw [hcm], by rw [hcm], ?_⟩
  unfold avgCycleTime
  rw [hcm]
  norm_num

/-- C3 witness: the amended statement at concrete times 0, 3600 and 7200 — the
two samples are one hour and two hours, and the mean is an hour and a half. -/
theorem C3_avg_cycle_two_samples_witness :
    (cycleMetrics 10000 [⟨"assign", "T-1", some 0⟩, ⟨"complete", "T-1", some 3600⟩,
        ⟨"complete", "T-1", some 7200⟩]).cycle_durations =
      [((3600 - 0 : Int) : Rat) / 3600, ((7200 - 0 : Int) : Rat) / 3600] ∧
    (cycleMetrics 10000 [⟨"assign", "T-1", some 0⟩, ⟨"complete", "T-1", some 3600⟩,
        ⟨"complete", "T-1", some 7200⟩]).assign_times = [("T-1", 0)] ∧
    avgCycleTime 10000 [⟨"assign", "T-1", some 0⟩, ⟨"complete", "T-1", some 3600⟩,
        ⟨"complete", "T-1", some 7200⟩] =
      some ((((3600 - 0 : Int) : Rat) / 3600 + ((7200 - 0 : Int) : Rat) / 3600) / 2) :=
  C3_avg_cycle_two_samples 10000 0 3600 7200 "T-1" (by decide) (by decide)

/-- C4 counterexample: a stored task with no `priority` field is normalized to
`P2` and ranks 2, not 99; in particular it ranks BEFORE a `P3` task instead of
after every `P0..P3` task. -/
theorem C4_counterexample :
    priority_rank (normalize_task rawNoPriority) = 2 ∧
    priority_rank { baseTask with priority := "P3" } = 3 ∧
    priority_rank (normalize_task rawNoPriority) <
      priority_rank { baseTask with priority := "P3" } ∧
    priority_rank (normalize_task rawNoPriority) ≠ 99 := by
  refine ⟨by decide, by decide, by decide, by decide⟩

/-- C4 (amended): `normalize_task` fills an absent `priority` with the default
`P2`, so such a task ranks 2 (after `P0`/`P1`, before `P3`); only a priority
value outside `P0..P3` ranks 99. -/
theorem C4_priority_default (r : RawTask) (t : Task) (hr : r.priority = none)
    (h0 : t.priority ≠ "P0") (h1 : t.priority ≠ "P1") (h2 : t.priority ≠ "P2")
    (h3 : t.priority ≠ "P3") :
    (normalize_task r).priority = "P2" ∧ priority_rank (normalize_task r) = 2 ∧
    priority_rank t = 99 := by
  refine ⟨by simp [normalize_task, hr], by simp [normalize_task, priority_rank, PRIORITY_RANK, hr], ?_⟩
  simp [priority_rank, PRIORITY_RANK, h0, h1, h2, h3]

/-- C4 witness: the amended statement at a concrete priority-less raw task and
a concrete task with priority `PX`. -/
theorem C4_priority_default_witness :
    (normalize_task rawNoPriority).priority = "P2" ∧
    priority_rank (normalize_task rawNoPriority) = 2 ∧
    priority_rank { baseTask with priority := "PX" } = 99 :=
  C4_priority_default rawNoPriority { baseTask with priority := "PX" } rfl
    (by decide) (by decide) (by decide) (by decide)

/-- C5 counterexample: `assign` with `force` still raises when a dependency id
is absent from the board — `force` does not bypass the missing-dependency
check. -/
theorem C5_counterexample :
    (assign_task sMissingDep "T-1" "alice" "n" "t" "assign" true).2 =
      some (TaskError.missingDependency "X-9") := by
  decide

/-- C5 (amended): `assign(T, A, force=true)` bypasses the completion
precondition, every blocking conflict and every not-ready dependency, and
raises no error PROVIDED every dependency id of `T` resolves to a task present
on the board; a dependency id absent from the board still raises even under
`force`. -/
theorem C5_force_bypass (s : SessionState) (tid agent note ts act : String) (task : Task)
    (hm : mappingFind s.tasks tid = some task)
    (hdeps : ∀ dep ∈ task.dependencies, ∃ d, mappingFind s.tasks dep = some d) :
    (assign_task s tid agent note ts act true).2 = none := by
  have hc : assignChecks s task tid agent true = none := by
    unfold assignChecks
    rw [if_neg (by simp), if_neg (by simp)]
    exact checkDeps_none s agent true task.dependencies fun dep hdep => by
      obtain ⟨d, hd⟩ := hdeps dep hdep
      exact ⟨d, hd, fun _ => Or.inr rfl⟩
  simp [assign_task, hm, hc]

/-- C5 witness: the amended statement on a done task with a present, not-ready
dependency and an active conflict — forced assign succeeds. -/
theorem C5_force_bypass_witness :
    (assign_task sDepHeld "T-1" "bob" "n" "t" "assign" true).2 = none :=
  C5_force_bypass sDepHeld "T-1" "bob" "n" "t" "assign"
    { baseTask with id := "T-1", status := "ready", dependencies := ["T-2"] }
    (by decide)
    (fun dep hdep => by
      have hd : dep = "T-2" := by simpa using hdep
      subst hd
      exact ⟨{ baseTask with id := "T-2", status := "in_progress", owner := "alice" },
        by decide⟩)

end TaskBoard

namespace TaskBoard

/-- C6: whenever `assign`/`select` terminates with a precondition error (task
not found, already done without force, blocking conflict without force,
missing dependency, or dependency not ready without force), no in-memory
mutation has happened: the returned session state is exactly the input state,
and if the session was freshly loaded (no dirty flags, no buffered events) the
commit on exit writes nothing. -/
theorem C6_assign_error_atomic (s s' : SessionState) (tid agent note ts act : String)
    (force : Bool) (e : TaskError)
    (h : assign_task s tid agent note ts act force = (s', some e)) :
    s' = s ∧ (s.board_dirty = false → s.state_dirty = false → s.events = [] →
      commit s' = ⟨none, none, []⟩) := by
  rcases assign_task_shape s tid agent note ts act force with ⟨e2, he⟩ | ⟨task, hm, he⟩
  · rw [he] at h
    have h1 : s = s' := congrArg Prod.fst h
    refine ⟨h1.symm, fun hb hsd hev => ?_⟩
    rw [← h1]
    simp [commit, hb, hsd, hev]
  · rw [he] at h
    exact absurd (congrArg Prod.snd h) (by simp)

/-- C6 witness: assigning a task absent from an empty board errs and the clean
session commits nothing. -/
theorem C6_assign_error_atomic_witness :
    mkState [] [] = mkState [] [] ∧
    ((mkState [] []).board_dirty = false → (mkState [] []).state_dirty = false →
      (mkState [] []).events = [] → commit (mkState [] []) = ⟨none, none, []⟩) :=
  C6_assign_error_atomic (mkState [] []) (mkState [] []) "T-1" "alice" "n" "t" "assign"
    false (TaskError.taskNotFound "T-1") (by decide)

/-- C8: releasing a task that is already `ready`, stored-owned by the sentinel
and absent from the overlay raises no error, leaves the board and the overlay
exactly unchanged (no overlay entry for the task), and still appends exactly
one `release` event (whose agent is the sentinel). -/
theorem C8_release_idempotent (s : SessionState) (tid note ts : String) (t : Task)
    (hm : mappingFind s.tasks tid = some t) (hst : t.status = "ready")
    (how : t.owner = DEFAULT_OWNER) (hlk : lookupAssoc s.assignments tid = none) :
    (release_task s tid note ts).2 = none ∧
    (release_task s tid note ts).1.tasks = s.tasks ∧
    (release_task s tid note ts).1.assignments = s.assignments ∧
    lookupAssoc (release_task s tid note ts).1.assignments tid = none ∧
    (release_task s tid note ts).1.events =
      s.events ++ [⟨"release", tid, DEFAULT_OWNER, note, ts, none⟩] := by
  have hprev : (lookupAssoc s.assignments tid).getD t.owner = DEFAULT_OWNER := by
    rw [hlk, Option.getD_none, how]
  have hf : (fun u : Task =>
      let u := { u with owner := DEFAULT_OWNER }
      if u.status = "in_progress" then { u with status := "ready" } else u) t = t := by
    have h1 : ({ t with owner := DEFAULT_OWNER } : Task) = t := by rw [← how]
    dsimp only
    rw [h1, if_neg (by rw [hst]; decide)]
  have htasks : updateTaskById s.tasks tid (fun u : Task =>
      let u := { u with owner := DEFAULT_OWNER }
      if u.status = "in_progress" then { u with status := "ready" } else u) = s.tasks :=
    updateTaskById_eq_self _ _ _ t hm hf
  have hassign : update_assignment s.assignments tid DEFAULT_OWNER = s.assignments := by
    unfold update_assignment
    rw [if_pos rfl]
    exact popAssoc_lookup_none hlk
  rcases release_task_shape s tid note ts with ⟨hnone, _⟩ | ⟨task, hmm, he⟩
  · rw [hnone] at hm
    exact absurd hm (by simp)
  · rw [hmm, Option.some.injEq] at hm
    subst hm
    refine ⟨?_, ?_, ?_, ?_, ?_⟩
    · rw [he]
    · rw [he]
      exact htasks
    · rw [he]
      exact hassign
    · rw [he]
      dsimp only
      rw [hassign, hlk]
    · rw [he]
      dsimp only
      rw [hprev, if_neg (by decide)]

/-- C8 witness: the statement at a one-task board holding a `ready`, unowned
task. -/
theorem C8_release_idempotent_witness :
    (release_task sOneReady "T-1" "n" "t").2 = none ∧
    (release_task sOneReady "T-1" "n" "t").1.tasks = sOneReady.tasks ∧
    (release_task sOneReady "T-1" "n" "t").1.assignments = sOneReady.assignments ∧
    lookupAssoc (release_task sOneReady "T-1" "n" "t").1.assignments "T-1" = none ∧
    (release_task sOneReady "T-1" "n" "t").1.events =
      sOneReady.events ++ [⟨"release", "T-1", DEFAULT_OWNER, "n", "t", none⟩] :=
  C8_release_idempotent sOneReady "T-1" "n" "t"
    { baseTask with id := "T-1", status := "ready" } (by decide) (by decide)
    (by decide) (by decide)

/-- C10: `assign(T, A)` without `force` succeeds even when some dependency `D`
of `T` exists on the board and is not `done`/`review`, provided the Assignment
Overlay maps `D` to the requesting agent `A` (and the other preconditions
hold) — the dependency-not-ready precondition is waived for dependencies held
by the requester. -/
theorem C10_dep_held_by_requester (s : SessionState) (tid agent note ts : String)
    (t : Task) (hm : mappingFind s.tasks tid = some t) (hst : t.status ≠ "done")
    (hconf : blockingConflicts s agent t = [])
    (hdeps : ∀ dep ∈ t.dependencies, ∃ d, mappingFind s.tasks dep = some d ∧
      ((d.status ≠ "done" ∧ d.status ≠ "review") →
        lookupAssoc s.assignments dep = some agent))
    (_hwit : ∃ dep ∈ t.dependencies, ∃ d, mappingFind s.tasks dep = some d ∧
      d.status ≠ "done" ∧ d.status ≠ "review") :
    (assign_task s tid agent note ts "assign" false).2 = none := by
  have hc : assignChecks s t tid agent false = none := by
    unfold assignChecks
    rw [if_neg (by simp [hst]), if_neg (by simp [hconf])]
    exact checkDeps_none s agent false t.dependencies fun dep hdep => by
      obtain ⟨d, hd, himp⟩ := hdeps dep hdep
      exact ⟨d, hd, fun hnr => Or.inl (himp hnr)⟩
  simp [assign_task, hm, hc]

/-- C10 witness: `T-1` depends on the in-progress `T-2`, which the overlay maps
to `alice`; `alice` can assign `T-1` to herself without force. -/
theorem C10_dep_held_by_requester_witness :
    (assign_task sDepHeld "T-1" "alice" "n" "t" "assign" false).2 = none :=
  C10_dep_held_by_requester sDepHeld "T-1" "alice" "n" "t"
    { baseTask with id := "T-1", status := "ready", dependencies := ["T-2"] }
    (by decide) (by decide) (by decide)
    (fun dep hdep => by
      have hd : dep = "T-2" := by simpa using hdep
      subst hd
      exact ⟨{ baseTask with id := "T-2", status := "in_progress", owner := "alice" },
        by decide, fun _ => by decide⟩)
    ⟨"T-2", by decide,
      { baseTask with id := "T-2", status := "in_progress", owner := "alice" },
      by decide, by decide, by decide⟩

end TaskBoard

namespace TaskBoard

/-- C1 counterexample: after `assign(T-1, alice)` succeeds, a second
`assign(T-1, bob)` by a different agent succeeds WITHOUT force and overwrites
the effective owner — `assign` has no ownership precondition, so exclusivity
against a direct re-assign does not hold. -/
theorem C1_counterexample :
    (assign_task sOneReady "T-1" "alice" "n" "t0" "assign" false).2 = none ∧
    (assign_task (assign_task sOneReady "T-1" "alice" "n" "t0" "assign" false).1
      "T-1" "bob" "n" "t1" "assign" false).2 = none ∧
    effOwnerId (assign_task (assign_task sOneReady "T-1" "alice" "n" "t0" "assign" false).1
      "T-1" "bob" "n" "t1" "assign" false).1 "T-1" = some "bob" ∧
    ("bob" : String) ≠ "alice" := by
  refine ⟨by decide, by decide, by decide, by decide⟩

/-- C1 (amended): after `assign(T, A)` succeeds (for a non-sentinel agent `A`)
the effective owner of `T` is exactly `A`, and `grab` never selects `T` for any
agent until `T` is released or completed (it is no longer a workable
candidate); a direct `assign` of `T` by a different agent, however, is not
blocked by `T`'s ownership. -/
theorem C1_assign_owner_grab_exclusion (s s' : SessionState)
    (tid A note ts act : String) (force : Bool)
    (h : assign_task s tid A note ts act force = (s', none)) (hA : A ≠ DEFAULT_OWNER) :
    effOwnerId s' tid = some A ∧
    ∀ force2 t, grabChoice s' force2 = some t → t.id ≠ tid := by
  rcases assign_task_shape s tid A note ts act force with ⟨e, he⟩ | ⟨task, hm, he⟩
  · rw [he] at h
    exact absurd (congrArg Prod.snd h) (by simp)
  · rw [he] at h
    obtain rfl := congrArg Prod.fst h
    have hlook : lookupAssoc (update_assignment s.assignments tid A) tid = some A := by
      unfold update_assignment
      rw [if_neg hA]
      exact lookupAssoc_setAssoc_self _ _ _
    constructor
    · unfold effOwnerId
      dsimp only
      rw [mappingFind_updateTaskById _ _ _ fun t => by rw [promote_id], hm, hlook]
      rfl
    · intro force2 t hg heq
      have hc := of_decide_eq_true (grabChoice_isCandidate hg)
      have hown := hc.2
      unfold effOwner at hown
      rw [heq] at hown
      dsimp only at hown
      rw [hlook] at hown
      exact hA hown

/-- C1 witness: the amended statement after `assign(T-1, alice)` on a one-task
board. -/
theorem C1_assign_owner_grab_exclusion_witness :
    effOwnerId (assign_task sOneReady "T-1" "alice" "n" "t0" "assign" false).1 "T-1" =
      some "alice" ∧
    ∀ force2 t,
      grabChoice (assign_task sOneReady "T-1" "alice" "n" "t0" "assign" false).1 force2 =
        some t → t.id ≠ "T-1" :=
  C1_assign_owner_grab_exclusion sOneReady
    (assign_task sOneReady "T-1" "alice" "n" "t0" "assign" false).1
    "T-1" "alice" "n" "t0" "assign" false (by decide) (by decide)

/-- C2 counterexample: `T-2` is a workable candidate whose only conflict `T-1`
is `in_progress` under the SENTINEL effective owner; the claim says such a
candidate is not skipped by `grab`/next-task selection, yet the code's
status-only conflict check skips it: `grab` selects nothing and `next_task` is
empty — while the owner-aware check of a direct `assign` does let it through. -/
theorem C2_counterexample :
    isCandidate sConflictSentinel tReadyConflicted = true ∧
    effOwnerId sConflictSentinel "T-1" = some DEFAULT_OWNER ∧
    summaryBlockingDeps sConflictSentinel tReadyConflicted = [] ∧
    summaryBlockingConflicts sConflictSentinel tReadyConflicted = ["T-1"] ∧
    nextTask sConflictSentinel = none ∧
    grabChoice sConflictSentinel false = none ∧
    (assign_task sConflictSentinel "T-2" "anyagent" "n" "t" "assign" false).2 = none := by
  refine ⟨by decide, by decide, by decide, by decide, by decide, by decide, by decide⟩

/-- C2 (amended): only `assign_task` applies the owner-aware conflict check (a
conflict whose referenced task is `in_progress`/`review` blocks only when its
effective owner is neither the sentinel nor the requesting agent); the
candidate walks of `grab` and of the non-mutating next-task selection block on
the referenced task's status alone, regardless of owner, so a candidate with
any `in_progress`/`review` conflict is skipped there (without force) even when
that conflict is effectively owned by the sentinel or by the requester. -/
theorem C2_conflict_checks_differ :
    (∀ s agent t, (∀ cid ∈ t.conflicts, ∀ c, mappingFind s.tasks cid = some c →
        (c.status = "in_progress" ∨ c.status = "review") →
        ((lookupAssoc s.assignments cid).getD c.owner = DEFAULT_OWNER ∨
          (lookupAssoc s.assignments cid).getD c.owner = agent)) →
      blockingConflicts s agent t = []) ∧
    (∀ s t, summaryBlockingConflicts s t ≠ [] →
      grabChoice s false ≠ some t ∧ nextTaskT s ≠ some t) := by
  constructor
  · intro s agent t h
    unfold blockingConflicts
    rw [List.filterMap_eq_nil_iff]
    intro cid hcid
    rcases hmc : mappingFind s.tasks cid with _ | c
    · simp
    · by_cases hst : c.status = "in_progress" ∨ c.status = "review"
      · rcases h cid hcid c hmc hst with h1 | h1 <;> simp [hst, h1]
      · simp [hst]
  · intro s t hconf
    constructor
    · intro hg
      exact of_decide_eq_true (grabChoice_pass hg) ⟨Or.inr hconf, rfl⟩
    · intro hn
      exact hconf (of_decide_eq_true (nextTaskT_pass hn)).2

/-- C2 witness: both amended parts at the sentinel-owned-conflict board. -/
theorem C2_conflict_checks_differ_witness :
    blockingConflicts sConflictSentinel "anyagent" tReadyConflicted = [] ∧
    (grabChoice sConflictSentinel false ≠ some tReadyConflicted ∧
      nextTaskT sConflictSentinel ≠ some tReadyConflicted) :=
  ⟨C2_conflict_checks_differ.1 sConflictSentinel "anyagent" tReadyConflicted
      (fun cid hcid c hmc hst => by
        have hcid2 : cid = "T-1" := by simpa [tReadyConflicted, baseTask] using hcid
        subst hcid2
        have h2 : mappingFind sConflictSentinel.tasks "T-1" =
            some { baseTask with id := "T-1", status := "in_progress" } := by decide
        rw [h2, Option.some.injEq] at hmc
        subst hmc
        exact Or.inl (by decide)),
    C2_conflict_checks_differ.2 sConflictSentinel tReadyConflicted (by decide)⟩

end TaskBoard

namespace TaskBoard

/-- C7: `add` with an explicit id already present on the board always fails
with a duplicate-id error before any mutation (board, overlay and event buffer
unchanged, since the whole state is unchanged), and every command — `add`,
`assign`/`select`, `grab`, `release`, `complete`, `comment` — preserves
uniqueness of task ids on the board. -/
theorem C7_unique_ids :
    (∀ s args ts i, args.id = some i → i ≠ "" → (∃ t ∈ s.tasks, t.id = i) →
      add_task s args ts = (s, some (TaskError.duplicateTaskId i))) ∧
    (∀ (s : SessionState) (args : AddArgs) (ts : String), (s.tasks.map Task.id).Nodup →
      ((add_task s args ts).1.tasks.map Task.id).Nodup) ∧
    (∀ s tid agent note ts act force, (s.tasks.map Task.id).Nodup →
      ((assign_task s tid agent note ts act force).1.tasks.map Task.id).Nodup) ∧
    (∀ s agent note ts force, (s.tasks.map Task.id).Nodup →
      ((grab_task s agent note ts force).1.tasks.map Task.id).Nodup) ∧
    (∀ s tid note ts, (s.tasks.map Task.id).Nodup →
      ((release_task s tid note ts).1.tasks.map Task.id).Nodup) ∧
    (∀ s tid agent note ts, (s.tasks.map Task.id).Nodup →
      ((complete_task s tid agent note ts).1.tasks.map Task.id).Nodup) ∧
    (∀ s tid author message ts, (s.tasks.map Task.id).Nodup →
      ((comment_task s tid author message ts).1.tasks.map Task.id).Nodup) := by
  have hassign : ∀ s tid agent note ts act force,
      ((assign_task s tid agent note ts act force).1.tasks.map Task.id) =
        s.tasks.map Task.id := by
    intro s tid agent note ts act force
    rcases assign_task_shape s tid agent note ts act force with ⟨e, he⟩ | ⟨task, hm, he⟩
    · rw [he]
    · rw [he]
      exact ids_updateTaskById _ _ _ fun t => by rw [promote_id]
  have hgrab : ∀ s agent note ts force,
      ((grab_task s agent note ts force).1.tasks.map Task.id) = s.tasks.map Task.id := by
    intro s agent note ts force
    rcases grab_task_shape s agent note ts force with heq | ⟨t, _, heq⟩
    · rw [heq]
    · rw [heq]
      exact hassign _ _ _ _ _ _ _
  have hrel : ∀ s tid note ts,
      ((release_task s tid note ts).1.tasks.map Task.id) = s.tasks.map Task.id := by
    intro s tid note ts
    rcases release_task_shape s tid note ts with ⟨_, he⟩ | ⟨task, hm, he⟩
    · rw [he]
    · rw [he]
      exact ids_updateTaskById _ _ _ fun t => by dsimp only; split <;> rfl
  have hcomp : ∀ s tid agent note ts,
      ((complete_task s tid agent note ts).1.tasks.map Task.id) = s.tasks.map Task.id := by
    intro s tid agent note ts
    rcases complete_task_shape s tid agent note ts with ⟨_, he⟩ | ⟨task, hm, he⟩
    · rw [he]
    · rw [he]
      exact ids_updateTaskById _ _ _ fun t => rfl
  have hcomm : ∀ s tid author message ts,
      ((comment_task s tid author message ts).1.tasks.map Task.id) = s.tasks.map Task.id := by
    intro s tid author message ts
    rcases comment_task_shape s tid author message ts with ⟨_, he⟩ | ⟨task, hm, he⟩
    · rw [he]
    · rw [he]
      exact ids_updateTaskById _ _ _ fun t => rfl
  refine ⟨?_, ?_,
    fun s tid agent note ts act force h => by rw [hassign]; exact h,
    fun s agent note ts force h => by rw [hgrab]; exact h,
    fun s tid note ts h => by rw [hrel]; exact h,
    fun s tid agent note ts h => by rw [hcomp]; exact h,
    fun s tid author message ts h => by rw [hcomm]; exact h⟩
  · intro s args ts i hid hne hex
    have hnid : addNextId s args = i := by
      unfold addNextId
      rw [hid]
      dsimp only
      rw [if_neg hne]
    rcases add_task_shape s args ts with hL | ⟨hno, _, _⟩
    · rw [hnid] at hL
      exact hL
    · exfalso
      obtain ⟨t, ht, htid⟩ := hex
      exact hno t ht (by rw [htid, hnid])
  · intro s args ts h
    rcases add_task_shape s args ts with hL | ⟨hno, hids, _⟩
    · rw [hL]
      exact h
    · rw [hids]
      refine List.Nodup.append h (List.nodup_singleton _) ?_
      intro x hx hx2
      have hxe : x = addNextId s args := by simpa using hx2
      subst hxe
      obtain ⟨t, ht, htid⟩ := List.mem_map.mp hx
      exact hno t ht htid

/-- C7 witness: adding explicit id `T-1` to a board already holding `T-1` fails
with the duplicate-id error, and the state is returned unchanged. -/
theorem C7_unique_ids_witness :
    add_task sOneReady argsDupId "t" =
      (sOneReady, some (TaskError.duplicateTaskId "T-1")) :=
  C7_unique_ids.1 sOneReady argsDupId "t" "T-1" rfl (by decide)
    ⟨{ baseTask with id := "T-1", status := "ready" }, by decide, by decide⟩

/-- C9: every key of the Assignment Overlay is the id of a task present on the
board: entries with unknown ids are dropped at load, and `add`,
`assign`/`select`, `grab`, `release`, `complete` and `comment` all preserve the
invariant. -/
theorem C9_overlay_valid :
    (∀ v u rawTasks rawAssignments,
      overlayValid (loadSession v u rawTasks rawAssignments)) ∧
    (∀ s args ts, overlayValid s → overlayValid (add_task s args ts).1) ∧
    (∀ s tid agent note ts act force, overlayValid s →
      overlayValid (assign_task s tid agent note ts act force).1) ∧
    (∀ s agent note ts force, overlayValid s →
      overlayValid (grab_task s agent note ts force).1) ∧
    (∀ s tid note ts, overlayValid s → overlayValid (release_task s tid note ts).1) ∧
    (∀ s tid agent note ts, overlayValid s →
      overlayValid (complete_task s tid agent note ts).1) ∧
    (∀ s tid author message ts, overlayValid s →
      overlayValid (comment_task s tid author message ts).1) := by
  have hassign : ∀ s tid agent note ts act force, overlayValid s →
      overlayValid (assign_task s tid agent note ts act force).1 := by
    intro s tid agent note ts act force h
    rcases assign_task_shape s tid agent note ts act force with ⟨e, he⟩ | ⟨task, hm, he⟩
    · rw [he]
      exact h
    · rw [he]
      intro p hp
      dsimp only at hp ⊢
      rw [ids_updateTaskById _ _ _ fun t => by rw [promote_id]]
      unfold update_assignment at hp
      by_cases hag : agent = DEFAULT_OWNER
      · rw [if_pos hag] at hp
        exact h p (mem_popAssoc hp)
      · rw [if_neg hag] at hp
        rcases mem_setAssoc hp with h1 | h1
        · exact h p h1
        · rw [h1]
          exact mappingFind_mem_ids hm
  refine ⟨?_, ?_, hassign, ?_, ?_, ?_, ?_⟩
  · intro v u rawTasks rawAssignments p hp
    unfold loadSession at hp ⊢
    dsimp only at hp ⊢
    exact of_decide_eq_true (List.mem_filter.mp hp).2
  · intro s args ts h
    rcases add_task_shape s args ts with hL | ⟨_, hids, hassigns⟩
    · rw [hL]
      exact h
    · intro p hp
      rw [hassigns] at hp
      rw [hids]
      exact List.mem_append_left _ (h p hp)
  · intro s agent note ts force h
    rcases grab_task_shape s agent note ts force with heq | ⟨t, _, heq⟩
    · rw [heq]
      exact h
    · rw [heq]
      exact hassign _ _ _ _ _ _ _ h
  · intro s tid note ts h
    rcases release_task_shape s tid note ts with ⟨_, he⟩ | ⟨task, hm, he⟩
    · rw [he]
      exact h
    · rw [he]
      intro p hp
      dsimp only at hp ⊢
      rw [ids_updateTaskById s.tasks tid
        (fun t : Task =>
          let t := { t with owner := DEFAULT_OWNER }
          if t.status = "in_progress" then { t with status := "ready" } else t)
        fun t => by dsimp only; split <;> rfl]
      unfold update_assignment at hp
      rw [if_pos rfl] at hp
      exact h p (mem_popAssoc hp)
  · intro s tid agent note ts h
    rcases complete_task_shape s tid agent note ts with ⟨_, he⟩ | ⟨task, hm, he⟩
    · rw [he]
      exact h
    · rw [he]
      intro p hp
      dsimp only at hp ⊢
      rw [ids_updateTaskById s.tasks tid
        (fun t : Task => { t with owner := agent, status := "done" }) fun t => rfl]
      unfold update_assignment at hp
      rw [if_pos rfl] at hp
      exact h p (mem_popAssoc hp)
  · intro s tid author message ts h
    rcases comment_task_shape s tid author message ts with ⟨_, he⟩ | ⟨task, hm, he⟩
    · rw [he]
      exact h
    · rw [he]
      intro p hp
      dsimp only at hp ⊢
      rw [ids_updateTaskById s.tasks tid
        (fun t : Task => { t with comments := t.comments ++ [⟨author, ts, message⟩] })
        fun t => rfl]
      exact h p hp

/-- C9 witness: the assign part at a concrete valid session. -/
theorem C9_overlay_valid_witness :
    overlayValid (assign_task sDepHeld "T-1" "alice" "n" "t" "assign" false).1 :=
  C9_overlay_valid.2.2.1 sDepHeld "T-1" "alice" "n" "t" "assign" false
    (fun p hp => by
      have hp2 : p = ("T-2", "alice") := by simpa [sDepHeld, mkState] using hp
      subst hp2
      decide)

end TaskBoard
